import Mathlib

/-
Verification of the PBA cumulus-parachain collator and its parachain
validation function (PVF).

The development shallowly embeds the two Rust crates:
  * pvf/src/lib.rs       — HeadData, BlockData, hash, hash_state, execute
  * collator/src/lib.rs  — StateDb (genesis / advance), the per-round
                           collation construction, and the seconded-statement
                           confirmation watcher.

Machine integers (u64, u32) are modelled as Nat with explicit reduction
modulo 2^64 / 2^32 at the points where the Rust code wraps.  Byte strings
are lists of Nat (each element a byte value).  The blake3 digest used by
the code is implemented concretely below so that every definition is
executable.
-/

/-! ## BLAKE3 digest (as called through the blake3 crate) -/

/-- Modulus of a 32-bit word. -/
def mod32 : Nat := 4294967296

/-- Modulus of a 64-bit word. -/
def u64Mod : Nat := 18446744073709551616

/-- Right rotation of a 32-bit word by n bits. -/
def rotr32 (x n : Nat) : Nat := (x / 2 ^ n + x % 2 ^ n * 2 ^ (32 - n)) % mod32

/-- The BLAKE3 initialization vector (the first eight SHA-256 IV words). -/
def blake3IV : List Nat :=
  [1779033703, 3144134277, 1013904242, 2773480762,
   1359893119, 2600822924, 528734635, 1541459225]

/-- The BLAKE3 quarter-round mixing function G, acting on positions
a b c d of a 16-word state, with message words mx my. -/
def blake3G (st : List Nat) (a b c d mx my : Nat) : List Nat :=
  let va := (st.getD a 0 + st.getD b 0 + mx) % mod32
  let vd := rotr32 (Nat.xor (st.getD d 0) va) 16
  let vc := (st.getD c 0 + vd) % mod32
  let vb := rotr32 (Nat.xor (st.getD b 0) vc) 12
  let va2 := (va + vb + my) % mod32
  let vd2 := rotr32 (Nat.xor vd va2) 8
  let vc2 := (vc + vd2) % mod32
  let vb2 := rotr32 (Nat.xor vb vc2) 7
  (((st.set a va2).set b vb2).set c vc2).set d vd2

/-- One BLAKE3 round: four column mixes followed by four diagonal mixes. -/
def blake3Round (st m : List Nat) : List Nat :=
  let s1 := blake3G st 0 4 8 12 (m.getD 0 0) (m.getD 1 0)
  let s2 := blake3G s1 1 5 9 13 (m.getD 2 0) (m.getD 3 0)
  let s3 := blake3G s2 2 6 10 14 (m.getD 4 0) (m.getD 5 0)
  let s4 := blake3G s3 3 7 11 15 (m.getD 6 0) (m.getD 7 0)
  let s5 := blake3G s4 0 5 10 15 (m.getD 8 0) (m.getD 9 0)
  let s6 := blake3G s5 1 6 11 12 (m.getD 10 0) (m.getD 11 0)
  let s7 := blake3G s6 2 7 8 13 (m.getD 12 0) (m.getD 13 0)
  blake3G s7 3 4 9 14 (m.getD 14 0) (m.getD 15 0)

/-- The BLAKE3 message-word permutation applied between rounds. -/
def blake3Permute (m : List Nat) : List Nat :=
  [m.getD 2 0, m.getD 6 0, m.getD 3 0, m.getD 10 0,
   m.getD 7 0, m.getD 0 0, m.getD 4 0, m.getD 13 0,
   m.getD 1 0, m.getD 11 0, m.getD 12 0, m.getD 5 0,
   m.getD 9 0, m.getD 14 0, m.getD 15 0, m.getD 8 0]

/-- Iterate the BLAKE3 round, permuting the message words between rounds. -/
def blake3Rounds : Nat → List Nat → List Nat → List Nat
  | 0, st, _ => st
  | n + 1, st, m => blake3Rounds n (blake3Round st m) (blake3Permute m)

/-- The BLAKE3 compression function.  cv is the 8-word chaining value, m the
16 message words, counter the chunk counter, blockLen the number of input
bytes in the block, flags the domain flags.  Returns the 16 output words. -/
def blake3Compress (cv m : List Nat) (counter blockLen flags : Nat) : List Nat :=
  let st0 := cv.take 8 ++ blake3IV.take 4 ++
    [counter % mod32, counter / mod32 % mod32, blockLen % mod32, flags % mod32]
  let st := blake3Rounds 7 st0 m
  (List.range 16).map fun i =>
    if i < 8 then Nat.xor (st.getD i 0) (st.getD (i + 8) 0)
    else Nat.xor (st.getD i 0) (cv.getD (i - 8) 0)

/-- Group a byte list into little-endian 32-bit words (four bytes per word). -/
def wordsOfBytes : List Nat → List Nat
  | b0 :: b1 :: b2 :: b3 :: rest =>
      (b0 + b1 * 256 + b2 * 65536 + b3 * 16777216) :: wordsOfBytes rest
  | _ => []

/-- Serialize one 32-bit word as four little-endian bytes. -/
def bytesOfWord (w : Nat) : List Nat :=
  [w % 256, w / 256 % 256, w / 65536 % 256, w / 16777216 % 256]

/-- Serialize a word list as little-endian bytes. -/
def bytesOfWords (ws : List Nat) : List Nat := (ws.map bytesOfWord).flatten

/-- Split a byte string into 64-byte blocks, structurally recursive on a fuel
argument so that the kernel can evaluate it; the fuel is always sufficient
when it is at least the list length. -/
def toBlocksAux : Nat → List Nat → List (List Nat)
  | 0, bs => [bs]
  | fuel + 1, bs =>
    if bs.length ≤ 64 then [bs]
    else bs.take 64 :: toBlocksAux fuel (bs.drop 64)

/-- Split a byte string into 64-byte blocks; a trailing (or only) block may be
shorter, and an empty input yields one empty block. -/
def toBlocks (bs : List Nat) : List (List Nat) := toBlocksAux bs.length bs

/-- CHUNK_START domain flag. -/
def chunkStart : Nat := 1

/-- CHUNK_END domain flag. -/
def chunkEnd : Nat := 2

/-- ROOT domain flag. -/
def rootFlag : Nat := 8

/-- Compress the blocks of a single root chunk in sequence.  startFlag is
CHUNK_START for the first block and 0 afterwards; the final block also
carries CHUNK_END and ROOT, and its first eight output words are the digest. -/
def processBlocks (cv : List Nat) (startFlag : Nat) : List (List Nat) → List Nat
  | [] => cv
  | [b] =>
      (blake3Compress cv (wordsOfBytes (b ++ List.replicate (64 - b.length) 0))
        0 b.length (startFlag + chunkEnd + rootFlag)).take 8
  | b :: b2 :: rest =>
      processBlocks
        ((blake3Compress cv (wordsOfBytes (b ++ List.replicate (64 - b.length) 0))
          0 b.length startFlag).take 8)
        0 (b2 :: rest)

/-- BLAKE3 digest (32 bytes) of a byte string.  This models the pvf crate's
hash function (a call into the blake3 crate) for inputs of at most 1024
bytes, which form a single chunk that is itself the root of the BLAKE3 tree;
every call site in this repository hashes at most 72 bytes. -/
def blake3Hash (data : List Nat) : List Nat :=
  bytesOfWords (processBlocks blake3IV chunkStart (toBlocks data))

/-! ## The PVF crate: data model and state-transition function -/

/-- Little-endian 8-byte canonical (SCALE) encoding of a u64. -/
def encodeU64 (n : Nat) : List Nat :=
  [n % 256, n / 2 ^ 8 % 256, n / 2 ^ 16 % 256, n / 2 ^ 24 % 256,
   n / 2 ^ 32 % 256, n / 2 ^ 40 % 256, n / 2 ^ 48 % 256, n / 2 ^ 56 % 256]

/-- Head data for the parachain: block number, parent hash, post-state hash. -/
structure HeadData where
  number : Nat
  parent_hash : List Nat
  post_state : List Nat
deriving DecidableEq

/-- Block data for the parachain: starting state and the (wrapping) increment. -/
structure BlockData where
  state : Nat
  add : Nat
deriving DecidableEq

/-- Canonical (SCALE) encoding of HeadData: number then parent_hash then
post_state, fixed width, 72 bytes for well-formed values. -/
def encodeHeadData (h : HeadData) : List Nat :=
  encodeU64 h.number ++ h.parent_hash ++ h.post_state

/-- Canonical (SCALE) encoding of BlockData: state then add, 16 bytes. -/
def encodeBlockData (b : BlockData) : List Nat :=
  encodeU64 b.state ++ encodeU64 b.add

/-- hash_state of the pvf crate: digest of the canonical encoding of a state. -/
def hash_state (state : Nat) : List Nat := blake3Hash (encodeU64 state)

/-- HeadData::hash of the pvf crate: digest of the header's canonical encoding. -/
def headHash (h : HeadData) : List Nat := blake3Hash (encodeHeadData h)

/-- Outcome of execute: the assert on the parent hash (a panic in the source),
the recoverable StateMismatch error, or a successfully produced header. -/
inductive ExecResult where
  | assertionFailure
  | stateMismatch
  | ok (head : HeadData)
deriving DecidableEq

/-- execute of the pvf crate: check the caller invariant
parent_hash = parent_head.hash(), check that the block's claimed pre-state
hashes to the parent's post_state (else StateMismatch), then produce the new
header with wrapping state addition and the incremented block number. -/
def execute (parent_hash : List Nat) (parent_head : HeadData) (block_data : BlockData) :
    ExecResult :=
  if parent_hash ≠ headHash parent_head then ExecResult.assertionFailure
  else if hash_state block_data.state ≠ parent_head.post_state then ExecResult.stateMismatch
  else ExecResult.ok
    { number := (parent_head.number + 1) % u64Mod
      parent_hash := parent_hash
      post_state := hash_state ((block_data.state + block_data.add) % u64Mod) }

/-! ## The collator crate: state store, collation production, watcher -/

/-- The amount added when producing a new block (the ADD constant). -/
def ADD : Nat := 7

/-- The state of the parachain: a mapping from head data to the state value,
modelled as an association list with the update semantics of a hash map. -/
structure StateDb where
  head_to_state : List (HeadData × Nat)
deriving DecidableEq

/-- Hash-map lookup on the association list. -/
def lookupKV : List (HeadData × Nat) → HeadData → Option Nat
  | [], _ => none
  | (k, v) :: rest, h => if k = h then some v else lookupKV rest h

/-- Hash-map insert on the association list: replace the value of an existing
key, otherwise add the binding. -/
def insertKV : List (HeadData × Nat) → HeadData → Nat → List (HeadData × Nat)
  | [], k, v => [(k, v)]
  | (k0, v0) :: rest, k, v =>
    if k0 = k then (k, v) :: rest else (k0, v0) :: insertKV rest k v

/-- The genesis head: number 0, all-zero parent hash, post_state the digest of
the canonical encoding of state 0. -/
def genesisHead : HeadData :=
  { number := 0, parent_hash := List.replicate 32 0, post_state := hash_state 0 }

/-- StateDb::genesis: a store holding exactly the genesis head mapped to 0. -/
def StateDb.genesis : StateDb :=
  { head_to_state := insertKV [] genesisHead 0 }

/-- StateDb::advance: look the parent head up (a panic, modelled as none, when
absent), build the block with the stored state and the ADD increment, run the
STF (a panic, modelled as none, when it fails), insert the new head mapped to
the wrapped new state, and return the block and new head. -/
def StateDb.advance (db : StateDb) (parent_head : HeadData) :
    Option (BlockData × HeadData × StateDb) :=
  match lookupKV db.head_to_state parent_head with
  | none => none
  | some s =>
    let block : BlockData := { state := s, add := ADD }
    match execute (headHash parent_head) parent_head block with
    | ExecResult.ok new_head =>
        some (block, new_head,
          { head_to_state := insertKV db.head_to_state new_head ((s + ADD) % u64Mod) })
    | _ => none

/-- The validation context handed to the per-round collation callback:
the encoded parent head and the relay-parent (round) number. -/
structure PersistedValidationData where
  parent_head : List Nat
  relay_parent_number : Nat
deriving DecidableEq

/-- The collation artifact built by the collation callback.  The proof of
validity is carried uncompressed (MaybeCompressedPoV::Raw) and holds the
encoded block data. -/
structure Collation where
  upward_messages : List (List Nat)
  horizontal_messages : List (List Nat)
  new_validation_code : Option (List Nat)
  head_data : List Nat
  proof_block_data : List Nat
  processed_downward_messages : Nat
  hrmp_watermark : Nat
deriving DecidableEq

/-- Little-endian decoding of the first eight bytes as a u64. -/
def decodeU64 (bs : List Nat) : Nat :=
  (bs.take 8).foldr (fun b acc => acc * 256 + b) 0

/-- SCALE decoding of HeadData from a byte string: reads the three fixed-width
fields in order, fails when fewer than 72 bytes are supplied, and ignores any
trailing bytes (as the Decode call on a byte slice does). -/
def decodeHeadData (bs : List Nat) : Option HeadData :=
  if bs.length < 72 then none
  else some
    { number := decodeU64 (bs.take 8)
      parent_hash := ((bs.drop 8).take 32)
      post_state := ((bs.drop 40).take 32) }

/-- The synchronous part of the per-round collation callback of
create_collation_function: decode the parent head (a panic, modelled as none,
on failure), advance the state store, and build the collation artifact with
empty messaging fields, the encoded new head, the encoded block data as the
proof payload, and the round's relay-parent number as the watermark. -/
def collate (db : StateDb) (validation_data : PersistedValidationData) :
    Option (Collation × StateDb) :=
  match decodeHeadData validation_data.parent_head with
  | none => none
  | some parent =>
    match StateDb.advance db parent with
    | none => none
    | some (block_data, head_data, db2) =>
        some
          ({ upward_messages := []
             horizontal_messages := []
             new_validation_code := none
             head_data := encodeHeadData head_data
             proof_block_data := encodeBlockData block_data
             processed_downward_messages := 0
             hrmp_watermark := validation_data.relay_parent_number }, db2)

/-- The candidate descriptor carried by a Seconded statement, projected to the
single field the watcher inspects: the proof-of-validity hash. -/
structure CandidateDescriptor where
  pov_hash : List Nat
deriving DecidableEq

/-- A committed candidate receipt, projected to its descriptor. -/
structure CommittedCandidateReceipt where
  descriptor : CandidateDescriptor
deriving DecidableEq

/-- A statement payload: either Seconded (carrying a candidate receipt) or
Valid (carrying a candidate hash). -/
inductive Statement where
  | Seconded (receipt : CommittedCandidateReceipt)
  | Valid (candidate_hash : List Nat)
deriving DecidableEq

/-- A signed statement, projected to its payload. -/
structure SignedFullStatement where
  payload : Statement
deriving DecidableEq

/-- The collation-seconded signal the external scheduler may deliver. -/
structure CollationSecondedSignal where
  statement : SignedFullStatement
deriving DecidableEq

/-- What the watcher observes on its one-shot delivery point: either the
channel was closed without a signal, or a signal was received. -/
inductive RecvOutcome where
  | closed
  | received (signal : CollationSecondedSignal)
deriving DecidableEq

/-- Terminal state of a confirmation watcher.  Mismatched stands for the
fatal path: the mismatch is logged and the process exits immediately. -/
inductive WatcherOutcome where
  | Abandoned
  | Confirmed
  | Mismatched
deriving DecidableEq

/-- The confirmation watcher spawned by create_collation_function for the
digest of the (possibly compressed) proof payload: on a closed channel it
exits quietly; on a signal it checks that the payload is a Seconded statement
whose descriptor's pov_hash equals the expected digest, logging success on a
match and terminating the process otherwise. -/
def secondedWatcher (expected : List Nat) (outcome : RecvOutcome) : WatcherOutcome :=
  match outcome with
  | RecvOutcome.closed => WatcherOutcome.Abandoned
  | RecvOutcome.received sig =>
    match sig.statement.payload with
    | Statement.Seconded receipt =>
        if receipt.descriptor.pov_hash = expected then WatcherOutcome.Confirmed
        else WatcherOutcome.Mismatched
    | Statement.Valid _ => WatcherOutcome.Mismatched

/-- Iterated advancement from genesis: runChain n performs n advance calls,
each passing the head returned by the previous one, starting from the genesis
head and the genesis store. -/
def runChain : Nat → Option (HeadData × StateDb)
  | 0 => some (genesisHead, StateDb.genesis)
  | n + 1 =>
    match runChain n with
    | none => none
    | some (h, db) =>
      match StateDb.advance db h with
      | none => none
      | some (_, h2, db2) => some (h2, db2)

/-- The stores reachable from genesis by advance calls. -/
inductive ReachableDb : StateDb → Prop where
  | genesis : ReachableDb StateDb.genesis
  | step {db : StateDb} {p : HeadData} {b : BlockData} {h : HeadData} {db2 : StateDb} :
      ReachableDb db → StateDb.advance db p = some (b, h, db2) → ReachableDb db2

/-! ## Helper lemmas -/

set_option maxRecDepth 100000

theorem lookupKV_insertKV_self (l : List (HeadData × Nat)) (k : HeadData) (v : Nat) :
    lookupKV (insertKV l k v) k = some v := by
  induction l with
  | nil => simp [insertKV, lookupKV]
  | cons p rest ih =>
    obtain ⟨k0, v0⟩ := p
    by_cases hk : k0 = k
    · simp [insertKV, hk, lookupKV]
    · simp [insertKV, hk, lookupKV, ih]

theorem lookupKV_insertKV_ne (l : List (HeadData × Nat)) (k k2 : HeadData) (v : Nat)
    (h : k2 ≠ k) : lookupKV (insertKV l k v) k2 = lookupKV l k2 := by
  induction l with
  | nil => simp [insertKV, lookupKV, Ne.symm h]
  | cons p rest ih =>
    obtain ⟨k0, v0⟩ := p
    by_cases hk : k0 = k
    · subst hk
      simp [insertKV, lookupKV, Ne.symm h]
    · simp [insertKV, hk, lookupKV, ih]

theorem execute_ok_of (parent_head : HeadData) (b : BlockData)
    (hst : hash_state b.state = parent_head.post_state) :
    execute (headHash parent_head) parent_head b = ExecResult.ok
      { number := (parent_head.number + 1) % u64Mod
        parent_hash := headHash parent_head
        post_state := hash_state ((b.state + b.add) % u64Mod) } := by
  simp [execute, hst]

theorem execute_mismatch_of (parent_head : HeadData) (b : BlockData)
    (hst : hash_state b.state ≠ parent_head.post_state) :
    execute (headHash parent_head) parent_head b = ExecResult.stateMismatch := by
  simp [execute, hst]

theorem advance_eq_of {db : StateDb} {p : HeadData} {s : Nat}
    (hlk : lookupKV db.head_to_state p = some s)
    (hst : hash_state s = p.post_state) :
    StateDb.advance db p = some ({ state := s, add := ADD },
      { number := (p.number + 1) % u64Mod, parent_hash := headHash p,
        post_state := hash_state ((s + ADD) % u64Mod) },
      { head_to_state := insertKV db.head_to_state
          { number := (p.number + 1) % u64Mod, parent_hash := headHash p,
            post_state := hash_state ((s + ADD) % u64Mod) } ((s + ADD) % u64Mod) }) := by
  have hex := execute_ok_of p { state := s, add := ADD } hst
  simp only [StateDb.advance, hlk, hex]

theorem advance_inv {db : StateDb} {p : HeadData} {b : BlockData} {h : HeadData} {db2 : StateDb}
    (hadv : StateDb.advance db p = some (b, h, db2)) :
    ∃ s, lookupKV db.head_to_state p = some s ∧
      hash_state s = p.post_state ∧
      b = { state := s, add := ADD } ∧
      h = { number := (p.number + 1) % u64Mod, parent_hash := headHash p,
            post_state := hash_state ((s + ADD) % u64Mod) } ∧
      db2 = { head_to_state := insertKV db.head_to_state h ((s + ADD) % u64Mod) } := by
  cases hlk : lookupKV db.head_to_state p with
  | none =>
    simp only [StateDb.advance, hlk] at hadv
    exact Option.noConfusion hadv
  | some s =>
    by_cases hst : hash_state s = p.post_state
    · rw [advance_eq_of hlk hst] at hadv
      obtain ⟨hb, hh, hdb2⟩ : _ ∧ _ ∧ _ := by simpa using hadv
      subst hb
      subst hh
      subst hdb2
      exact ⟨s, rfl, hst, rfl, rfl, rfl⟩
    · have hex := execute_mismatch_of p { state := s, add := ADD } hst
      simp only [StateDb.advance, hlk, hex] at hadv
      exact Option.noConfusion hadv

theorem reachable_inv {db : StateDb} (hr : ReachableDb db) :
    ∀ h s, lookupKV db.head_to_state h = some s → hash_state s = h.post_state := by
  induction hr with
  | genesis =>
    intro h s hlk
    have hlk2 : lookupKV [(genesisHead, 0)] h = some s := hlk
    by_cases hg : genesisHead = h
    · subst hg
      simp only [lookupKV, if_pos rfl] at hlk2
      obtain rfl := Option.some.inj hlk2
      rfl
    · simp only [lookupKV, if_neg hg] at hlk2
      exact Option.noConfusion hlk2
  | @step db0 p0 b0 h0 db20 _ hadv ih =>
    intro h s hlk
    obtain ⟨s0, hlk0, hst0, hb, hh, hdb2⟩ := advance_inv hadv
    have hlk2 : lookupKV (insertKV db0.head_to_state h0 ((s0 + ADD) % u64Mod)) h = some s := by
      rw [hdb2] at hlk
      exact hlk
    by_cases hkh : h = h0
    · subst hkh
      rw [lookupKV_insertKV_self] at hlk2
      have hs := Option.some.inj hlk2
      rw [hh]
      exact congrArg hash_state hs.symm
    · rw [lookupKV_insertKV_ne _ _ _ _ hkh] at hlk2
      exact ih h s hlk2

theorem runChain_spec (n : Nat) : ∃ h db, runChain n = some (h, db) ∧
    h.number = n % u64Mod ∧
    lookupKV db.head_to_state h = some (ADD * n % u64Mod) ∧
    h.post_state = hash_state (ADD * n % u64Mod) := by
  induction n with
  | zero =>
    refine ⟨genesisHead, StateDb.genesis, rfl, rfl, ?_, rfl⟩
    have : lookupKV StateDb.genesis.head_to_state genesisHead = some 0 :=
      lookupKV_insertKV_self [] genesisHead 0
    simpa using this
  | succ n ih =>
    obtain ⟨h, db, hrun, hnum, hlk, hps⟩ := ih
    have hadv := advance_eq_of hlk hps.symm
    have harith : (ADD * n % u64Mod + ADD) % u64Mod = ADD * (n + 1) % u64Mod := by
      rw [Nat.mod_add_mod]
      ring_nf
    have hrun2 : runChain (n + 1) = some
        ({ number := (h.number + 1) % u64Mod, parent_hash := headHash h,
           post_state := hash_state ((ADD * n % u64Mod + ADD) % u64Mod) },
         { head_to_state := insertKV db.head_to_state
             { number := (h.number + 1) % u64Mod, parent_hash := headHash h,
               post_state := hash_state ((ADD * n % u64Mod + ADD) % u64Mod) }
             ((ADD * n % u64Mod + ADD) % u64Mod) }) := by
      simp only [runChain, hrun, hadv]
    refine ⟨_, _, hrun2, ?_, ?_, ?_⟩
    · rw [hnum, Nat.mod_add_mod]
    · rw [lookupKV_insertKV_self, harith]
    · rw [harith]

/-! ## Claims -/

/-- C1: for every parent_hash, parent_head and block with parent_hash equal
to the digest of parent_head's canonical encoding, execute returns
StateMismatch if and only if the digest of block.state's canonical encoding
differs from parent_head.post_state, and in that case no header is produced. -/
theorem c1_state_mismatch_iff (parent_hash : List Nat) (parent_head : HeadData)
    (block_data : BlockData) (hph : parent_hash = headHash parent_head) :
    (execute parent_hash parent_head block_data = ExecResult.stateMismatch ↔
      hash_state block_data.state ≠ parent_head.post_state) ∧
    (∀ h2 : HeadData, execute parent_hash parent_head block_data = ExecResult.stateMismatch →
      execute parent_hash parent_head block_data ≠ ExecResult.ok h2) := by
  subst hph
  constructor
  · by_cases hst : hash_state block_data.state = parent_head.post_state
    · rw [execute_ok_of parent_head block_data hst]
      simp [hst]
    · rw [execute_mismatch_of parent_head block_data hst]
      simp [hst]
  · intro h2 hmis hok
    rw [hmis] at hok
    exact ExecResult.noConfusion hok

/-- C1 witness: the genesis head with a block claiming pre-state 1 (whose
digest differs from the genesis post-state) is rejected with StateMismatch. -/
theorem c1_state_mismatch_iff_witness :
    hash_state 1 ≠ genesisHead.post_state ∧
    execute (headHash genesisHead) genesisHead { state := 1, add := 7 } =
      ExecResult.stateMismatch :=
  ⟨by decide,
   (c1_state_mismatch_iff (headHash genesisHead) genesisHead { state := 1, add := 7 } rfl).1.mpr
     (by decide)⟩

/-- C2 (amended): under the same hypotheses, execute succeeds and returns a
header with number = (parent_head.number + 1) mod 2^64 (the claim's plain
parent_head.number + 1, without the reduction, fails at number = 2^64 - 1),
the given parent_hash, and post_state the digest of the canonical encoding of
(block.state + block.add) mod 2^64. -/
theorem c2_execute_success (parent_hash : List Nat) (parent_head : HeadData)
    (block_data : BlockData)
    (hph : parent_hash = headHash parent_head)
    (hst : hash_state block_data.state = parent_head.post_state) :
    execute parent_hash parent_head block_data = ExecResult.ok
      { number := (parent_head.number + 1) % u64Mod
        parent_hash := parent_hash
        post_state := hash_state ((block_data.state + block_data.add) % u64Mod) } := by
  subst hph
  exact execute_ok_of parent_head block_data hst

/-- C2 witness: executing the genesis head with the block (0, 7) yields the
header number 1 with post-state digest of state 7. -/
theorem c2_execute_success_witness :
    hash_state 0 = genesisHead.post_state ∧
    execute (headHash genesisHead) genesisHead { state := 0, add := 7 } =
      ExecResult.ok
        { number := (genesisHead.number + 1) % u64Mod
          parent_hash := headHash genesisHead
          post_state := hash_state ((0 + 7) % u64Mod) } :=
  ⟨rfl, c2_execute_success (headHash genesisHead) genesisHead { state := 0, add := 7 } rfl rfl⟩

/-- The parent head used to refute the unreduced reading of C2: its number is
the largest u64 value, and its post-state matches pre-state 0. -/
def c2CexHead : HeadData :=
  { number := u64Mod - 1, parent_hash := List.replicate 32 0, post_state := hash_state 0 }

/-- C2 counterexample: at parent number 2^64 - 1 with a valid (0, 7) block,
execute succeeds but returns number 0, not parent_head.number + 1 = 2^64. -/
theorem c2_execute_success_counterexample :
    execute (headHash c2CexHead) c2CexHead { state := 0, add := 7 } =
      ExecResult.ok
        { number := 0, parent_hash := headHash c2CexHead, post_state := hash_state 7 } ∧
    (0 : Nat) ≠ c2CexHead.number + 1 := by
  constructor
  · have h0 := execute_ok_of c2CexHead { state := 0, add := 7 } rfl
    have h1 : (c2CexHead.number + 1) % u64Mod = 0 := by
      simp [c2CexHead, u64Mod]
    have h2 : ((0 : Nat) + 7) % u64Mod = 7 := by
      simp [u64Mod]
    rw [h1, h2] at h0
    exact h0
  · simp [c2CexHead, u64Mod]

/-- C3: the confirmation watcher spawned for an expected digest: a closed
delivery point yields Abandoned; a received signal yields Confirmed exactly
when its payload is a Seconded statement whose proof-of-validity hash equals
the expected digest, and Mismatched (log plus immediate process termination)
otherwise; it never reports Confirmed for a mismatched signal. -/
theorem c3_watcher_cases (expected : List Nat) (outcome : RecvOutcome) :
    (outcome = RecvOutcome.closed →
      secondedWatcher expected outcome = WatcherOutcome.Abandoned) ∧
    (∀ sig : CollationSecondedSignal, outcome = RecvOutcome.received sig →
      ((∃ receipt, sig.statement.payload = Statement.Seconded receipt ∧
          receipt.descriptor.pov_hash = expected) →
        secondedWatcher expected outcome = WatcherOutcome.Confirmed) ∧
      (¬ (∃ receipt, sig.statement.payload = Statement.Seconded receipt ∧
          receipt.descriptor.pov_hash = expected) →
        secondedWatcher expected outcome = WatcherOutcome.Mismatched)) ∧
    (secondedWatcher expected outcome = WatcherOutcome.Confirmed →
      ∃ sig receipt, outcome = RecvOutcome.received sig ∧
        sig.statement.payload = Statement.Seconded receipt ∧
        receipt.descriptor.pov_hash = expected) := by
  refine ⟨?_, ?_, ?_⟩
  · intro hc
    subst hc
    rfl
  · intro sig hrec
    subst hrec
    constructor
    · rintro ⟨receipt, hr, hpov⟩
      simp [secondedWatcher, hr, hpov]
    · intro hno
      cases hpay : sig.statement.payload with
      | Seconded receipt =>
        by_cases hpov : receipt.descriptor.pov_hash = expected
        · exact absurd ⟨receipt, hpay, hpov⟩ hno
        · simp [secondedWatcher, hpay, hpov]
      | Valid ch => simp [secondedWatcher, hpay]
  · intro hconf
    cases outcome with
    | closed => exact absurd hconf (by simp [secondedWatcher])
    | received sig =>
      cases hpay : sig.statement.payload with
      | Seconded receipt =>
        by_cases hpov : receipt.descriptor.pov_hash = expected
        · exact ⟨sig, receipt, rfl, hpay, hpov⟩
        · rw [show secondedWatcher expected (RecvOutcome.received sig) =
              WatcherOutcome.Mismatched from by simp [secondedWatcher, hpay, hpov]] at hconf
          exact WatcherOutcome.noConfusion hconf
      | Valid ch =>
        rw [show secondedWatcher expected (RecvOutcome.received sig) =
            WatcherOutcome.Mismatched from by simp [secondedWatcher, hpay]] at hconf
        exact WatcherOutcome.noConfusion hconf

/-- Candidate receipt used as the matching signal in the C3 witness. -/
def c3Receipt : CommittedCandidateReceipt :=
  { descriptor := { pov_hash := hash_state 0 } }

/-- Signal carrying a Seconded statement for the C3 witness. -/
def c3Signal : CollationSecondedSignal :=
  { statement := { payload := Statement.Seconded c3Receipt } }

/-- C3 witness: a closed delivery point is Abandoned, and a Seconded signal
carrying exactly the expected digest is Confirmed. -/
theorem c3_watcher_cases_witness :
    secondedWatcher (hash_state 0) RecvOutcome.closed = WatcherOutcome.Abandoned ∧
    secondedWatcher (hash_state 0) (RecvOutcome.received c3Signal) =
      WatcherOutcome.Confirmed :=
  ⟨(c3_watcher_cases (hash_state 0) RecvOutcome.closed).1 rfl,
   ((c3_watcher_cases (hash_state 0) (RecvOutcome.received c3Signal)).2.1 c3Signal rfl).1
     ⟨c3Receipt, rfl, rfl⟩⟩

/-- C4 (amended): for every N, the N advance calls chained from genesis all
succeed, and the N-th header's number is N mod 2^64 (the claim's plain
number = N fails at N = 2^64, where the u64 number wraps to 0). -/
theorem c4_monotonic_numbering (N : Nat) :
    ∃ h db, runChain N = some (h, db) ∧ h.number = N % u64Mod := by
  obtain ⟨h, db, h1, h2, _, _⟩ := runChain_spec N
  exact ⟨h, db, h1, h2⟩

/-- C4 counterexample: after 2^64 advancements every call still succeeds but
the resulting header's number is 2^64 mod 2^64 = 0, not 2^64. -/
theorem c4_monotonic_numbering_counterexample :
    ¬ (∃ h db, runChain u64Mod = some (h, db) ∧ h.number = u64Mod) := by
  rintro ⟨h, db, h1, h2⟩
  obtain ⟨h3, db3, h4, h5, _, _⟩ := runChain_spec u64Mod
  rw [h1] at h4
  obtain ⟨rfl, rfl⟩ : h = h3 ∧ db = db3 := by simpa using h4
  rw [h2, Nat.mod_self] at h5
  exact absurd h5 (by simp [u64Mod])

/-- C5: genesis constructs a store with exactly one entry, keyed by the
header with number 0, thirty-two zero parent-hash bytes and post_state the
digest of the canonical encoding of 0, mapped to state 0; it is
deterministic and repeated constructions agree structurally and in digest. -/
theorem c5_genesis_store :
    StateDb.genesis.head_to_state =
      [({ number := 0, parent_hash := List.replicate 32 0, post_state := hash_state 0 }, 0)] ∧
    StateDb.genesis = StateDb.genesis ∧
    headHash { number := 0, parent_hash := List.replicate 32 0, post_state := hash_state 0 } =
      headHash genesisHead :=
  ⟨rfl, rfl, rfl⟩

/-- C6 (amended): advance removes no keys from the store: every entry whose
header differs from the returned new header keeps its exact state value, the
store gains the new header mapped to the new state value, and every key
present before remains present.  (The amendment exempts the new header's own
key: when it was already present with a different value, the insert
overwrites that value, refuting the claim's unrestricted reading.) -/
theorem c6_store_monotone {db : StateDb} {p : HeadData} {b : BlockData} {h : HeadData}
    {db2 : StateDb} (hadv : StateDb.advance db p = some (b, h, db2)) :
    (∀ k v, k ≠ h → lookupKV db.head_to_state k = some v →
      lookupKV db2.head_to_state k = some v) ∧
    lookupKV db2.head_to_state h = some ((b.state + ADD) % u64Mod) ∧
    (∀ k, (lookupKV db.head_to_state k).isSome → (lookupKV db2.head_to_state k).isSome) := by
  obtain ⟨s, hlk, hst, hb, hh, hdb2⟩ := advance_inv hadv
  have hdb2l : db2.head_to_state = insertKV db.head_to_state h ((s + ADD) % u64Mod) := by
    rw [hdb2]
  refine ⟨?_, ?_, ?_⟩
  · intro k v hkh hold
    rw [hdb2l, lookupKV_insertKV_ne _ _ _ _ hkh]
    exact hold
  · rw [hdb2l, lookupKV_insertKV_self, hb]
  · intro k hk
    by_cases hkh : k = h
    · subst hkh
      rw [hdb2l, lookupKV_insertKV_self]
      rfl
    · rw [hdb2l, lookupKV_insertKV_ne _ _ _ _ hkh]
      exact hk

/-- The header produced by the first advance from genesis. -/
def stepHead : HeadData :=
  { number := 1, parent_hash := headHash genesisHead, post_state := hash_state 7 }

/-- C6 witness: advancing genesis keeps the genesis entry and adds the new
header mapped to the new state 7. -/
theorem c6_store_monotone_witness :
    StateDb.advance StateDb.genesis genesisHead =
      some ({ state := 0, add := 7 }, stepHead,
        { head_to_state := [(genesisHead, 0), (stepHead, 7)] }) ∧
    lookupKV [(genesisHead, 0), (stepHead, 7)] stepHead = some ((0 + ADD) % u64Mod) := by
  have hadv : StateDb.advance StateDb.genesis genesisHead =
      some ({ state := 0, add := 7 }, stepHead,
        { head_to_state := [(genesisHead, 0), (stepHead, 7)] }) := by decide
  exact ⟨hadv, (c6_store_monotone hadv).2.1⟩

/-- A store that already contains the header the next advance will produce,
mapped to a different value. -/
def c6CexDb : StateDb := { head_to_state := [(genesisHead, 0), (stepHead, 42)] }

/-- C6 counterexample: advancing c6CexDb at the genesis head succeeds, but
the pre-existing entry mapping stepHead to 42 is overwritten with 7, so not
every prior (header, state) entry survives with the same value. -/
theorem c6_store_monotone_counterexample :
    lookupKV c6CexDb.head_to_state stepHead = some 42 ∧
    StateDb.advance c6CexDb genesisHead =
      some ({ state := 0, add := 7 }, stepHead,
        { head_to_state := [(genesisHead, 0), (stepHead, 7)] }) ∧
    lookupKV [(genesisHead, 0), (stepHead, 7)] stepHead = some 7 ∧
    (7 : Nat) ≠ 42 := by
  refine ⟨by decide, by decide, by decide, by decide⟩

/-- C7: with block state 2^64 - 4 and add 7, a matching parent head yields a
successful execution whose new state is 3 (wrapping) and whose post_state is
the digest of the canonical encoding of 3. -/
theorem c7_wrapping_add (parent_hash : List Nat) (parent_head : HeadData)
    (hph : parent_hash = headHash parent_head)
    (hst : parent_head.post_state = hash_state (u64Mod - 4)) :
    (u64Mod - 4 + 7) % u64Mod = 3 ∧
    execute parent_hash parent_head { state := u64Mod - 4, add := 7 } =
      ExecResult.ok
        { number := (parent_head.number + 1) % u64Mod
          parent_hash := parent_hash
          post_state := hash_state 3 } := by
  have harith : (u64Mod - 4 + 7) % u64Mod = 3 := by simp [u64Mod]
  subst hph
  have h0 := execute_ok_of parent_head { state := u64Mod - 4, add := 7 } hst.symm
  rw [show ({ state := u64Mod - 4, add := 7 } : BlockData).state +
      ({ state := u64Mod - 4, add := 7 } : BlockData).add = u64Mod - 4 + 7 from rfl,
    harith] at h0
  exact ⟨harith, h0⟩

/-- Parent head used in the C7 witness: its post-state is the digest of the
canonical encoding of 2^64 - 4. -/
def c7Head : HeadData :=
  { number := 0, parent_hash := List.replicate 32 0, post_state := hash_state (u64Mod - 4) }

/-- C7 witness: the wrapping execution at the concrete parent head c7Head. -/
theorem c7_wrapping_add_witness :
    (u64Mod - 4 + 7) % u64Mod = 3 ∧
    execute (headHash c7Head) c7Head { state := u64Mod - 4, add := 7 } =
      ExecResult.ok
        { number := (c7Head.number + 1) % u64Mod
          parent_hash := headHash c7Head
          post_state := hash_state 3 } :=
  c7_wrapping_add (headHash c7Head) c7Head rfl rfl

/-- C8: every collation produced by the per-round callback has empty upward
and horizontal messages, no new validation code, zero processed downward
messages, watermark equal to the validation context's relay-parent number,
header bytes the canonical encoding of the head produced by advance, and
proof payload the canonical encoding of the produced block data. -/
theorem c8_collation_shape {db : StateDb} {vd : PersistedValidationData} {c : Collation}
    {db2 : StateDb} (hc : collate db vd = some (c, db2)) :
    c.upward_messages = [] ∧ c.horizontal_messages = [] ∧ c.new_validation_code = none ∧
    c.processed_downward_messages = 0 ∧ c.hrmp_watermark = vd.relay_parent_number ∧
    ∃ parent block_data head_data db3,
      decodeHeadData vd.parent_head = some parent ∧
      StateDb.advance db parent = some (block_data, head_data, db3) ∧
      c.head_data = encodeHeadData head_data ∧
      c.proof_block_data = encodeBlockData block_data ∧ db2 = db3 := by
  cases hdec : decodeHeadData vd.parent_head with
  | none =>
    simp only [collate, hdec] at hc
    exact Option.noConfusion hc
  | some parent =>
    cases hadv : StateDb.advance db parent with
    | none =>
      simp only [collate, hdec, hadv] at hc
      exact Option.noConfusion hc
    | some t =>
      obtain ⟨bd, hd, db3⟩ := t
      simp only [collate, hdec, hadv] at hc
      obtain ⟨hcc, hdb⟩ : _ ∧ _ := by simpa using hc
      subst hcc
      subst hdb
      exact ⟨rfl, rfl, rfl, rfl, rfl, parent, bd, hd, db3, rfl, hadv, rfl, rfl, rfl⟩

/-- The validation context used in the C8 witness: the encoded genesis head
and relay-parent number 5. -/
def c8Vd : PersistedValidationData :=
  { parent_head := encodeHeadData genesisHead, relay_parent_number := 5 }

/-- The collation the callback produces in the C8 witness. -/
def c8Coll : Collation :=
  { upward_messages := []
    horizontal_messages := []
    new_validation_code := none
    head_data := encodeHeadData stepHead
    proof_block_data := encodeBlockData { state := 0, add := 7 }
    processed_downward_messages := 0
    hrmp_watermark := 5 }

/-- The store after the C8 witness round. -/
def c8Db2 : StateDb := { head_to_state := [(genesisHead, 0), (stepHead, 7)] }

/-- C8 witness: the concrete round at genesis with relay-parent number 5. -/
theorem c8_collation_shape_witness :
    collate StateDb.genesis c8Vd = some (c8Coll, c8Db2) ∧
    (c8Coll.upward_messages = [] ∧ c8Coll.horizontal_messages = [] ∧
     c8Coll.new_validation_code = none ∧ c8Coll.processed_downward_messages = 0 ∧
     c8Coll.hrmp_watermark = c8Vd.relay_parent_number ∧
     ∃ parent block_data head_data db3,
       decodeHeadData c8Vd.parent_head = some parent ∧
       StateDb.advance StateDb.genesis parent = some (block_data, head_data, db3) ∧
       c8Coll.head_data = encodeHeadData head_data ∧
       c8Coll.proof_block_data = encodeBlockData block_data ∧ c8Db2 = db3) := by
  have hc : collate StateDb.genesis c8Vd = some (c8Coll, c8Db2) := by decide
  exact ⟨hc, c8_collation_shape hc⟩

/-- C9: every store reachable from genesis by advance calls satisfies the
invariant that each stored state hashes to its header's post_state, so for a
parent present in the store the STF never reports StateMismatch and the
advance panic branch is unreachable. -/
theorem c9_reachable_invariant {db : StateDb} (hr : ReachableDb db) :
    (∀ h s, lookupKV db.head_to_state h = some s → hash_state s = h.post_state) ∧
    (∀ p s, lookupKV db.head_to_state p = some s →
      execute (headHash p) p { state := s, add := ADD } ≠ ExecResult.stateMismatch ∧
      StateDb.advance db p ≠ none) := by
  have hinv := reachable_inv hr
  refine ⟨hinv, ?_⟩
  intro p s hlk
  have hst := hinv p s hlk
  constructor
  · rw [execute_ok_of p { state := s, add := ADD } hst]
    exact fun hcontra => ExecResult.noConfusion hcontra
  · rw [advance_eq_of hlk hst]
    exact fun hcontra => Option.noConfusion hcontra

/-- C9 witness: at the genesis store itself, state 0 hashes to the genesis
post-state and the STF accepts the genesis parent. -/
theorem c9_reachable_invariant_witness :
    hash_state 0 = genesisHead.post_state ∧
    execute (headHash genesisHead) genesisHead { state := 0, add := ADD } ≠
      ExecResult.stateMismatch := by
  have h := c9_reachable_invariant ReachableDb.genesis
  have hlk : lookupKV StateDb.genesis.head_to_state genesisHead = some 0 :=
    lookupKV_insertKV_self [] genesisHead 0
  exact ⟨h.1 genesisHead 0 hlk, (h.2 genesisHead 0 hlk).1⟩

/-- C10: when the parent number is 2^64 - 1 and the pre-state check passes,
execute succeeds and the returned header's number is 0: under the wasm
runtime's modulo-2^64 semantics the block numbering is cyclic at the 64-bit
boundary rather than strictly monotonic. -/
theorem c10_number_wraps (parent_hash : List Nat) (parent_head : HeadData)
    (block_data : BlockData)
    (hph : parent_hash = headHash parent_head)
    (hst : hash_state block_data.state = parent_head.post_state)
    (hnum : parent_head.number = u64Mod - 1) :
    execute parent_hash parent_head block_data = ExecResult.ok
      { number := 0
        parent_hash := parent_hash
        post_state := hash_state ((block_data.state + block_data.add) % u64Mod) } := by
  subst hph
  have h0 := execute_ok_of parent_head block_data hst
  rw [hnum] at h0
  have harith : (u64Mod - 1 + 1) % u64Mod = 0 := by simp [u64Mod]
  rw [harith] at h0
  exact h0

/-- Parent head used in the C10 witness, with the largest u64 number. -/
def c10Head : HeadData :=
  { number := u64Mod - 1, parent_hash := List.replicate 32 0, post_state := hash_state 0 }

/-- C10 witness: executing at the concrete parent head with number 2^64 - 1
yields a header numbered 0. -/
theorem c10_number_wraps_witness :
    execute (headHash c10Head) c10Head { state := 0, add := 7 } = ExecResult.ok
      { number := 0
        parent_hash := headHash c10Head
        post_state := hash_state ((0 + 7) % u64Mod) } :=
  c10_number_wraps (headHash c10Head) c10Head { state := 0, add := 7 } rfl rfl rfl
